import Mathlib

/-!
Verification development for the reactor-di resolution engine.

The definitions below are a shallow embedding of the Python sources
src/reactor_di/type_utils.py, src/reactor_di/law_of_demeter.py and
src/reactor_di/module.py.  Classes are identified by name in an
environment table; type annotations, class attributes, constructor
evidence and constructibility are recorded as fields of `ClassInfo`,
mirroring exactly the observations the Python code makes through
reflection (`get_type_hints`, `hasattr`, `inspect.getsource`,
test-instantiation).  Runtime attribute access is modelled by a
fuel-indexed interpreter over a heap of instances.
-/

set_option maxRecDepth 4000

/-- Association-list lookup: first binding for the key wins (Python dict /
first match along the MRO). -/
def lookupA {κ α : Type} [DecidableEq κ] : List (κ × α) → κ → Option α
  | [], _ => none
  | (k1, v) :: rest, k => if k1 = k then some v else lookupA rest k

/-- Association-list insert-or-replace, preserving the position of an
existing key and appending new keys (Python dict update semantics). -/
def insertA {κ α : Type} [DecidableEq κ] : List (κ × α) → κ → α → List (κ × α)
  | [], k, v => [(k, v)]
  | (k1, v1) :: rest, k, v =>
      if k1 = k then (k, v) :: rest else (k1, v1) :: insertA rest k v

/-- Merge a list of bindings into a map, later entries overriding earlier
ones (models `dict.update`). -/
def updateAll {α : Type} (m : List (String × α)) (kvs : List (String × α)) :
    List (String × α) :=
  kvs.foldl (fun acc p => insertA acc p.1 p.2) m

/-- Byte-for-byte prefix test on strings, defined structurally so that the
kernel can evaluate it (mirrors Python str.startswith). -/
def strStarts (s p : String) : Bool :=
  p.data.isPrefixOf s.data

/-- Drop the first n characters of a string, defined structurally (mirrors
Python slicing s[n:]). -/
def strDrop (s : String) (n : Nat) : String :=
  String.mk (s.data.drop n)

/-- The character length of a string, defined structurally. -/
def strLen (s : String) : Nat :=
  s.data.length

/-- The Python primitive and container types listed in the sources
(`int, float, str, bool, bytes, complex, list, dict, tuple, set, frozenset`). -/
inductive PrimKind where
  | pInt | pFloat | pStr | pBool | pBytes | pComplex
  | pList | pDict | pTuple | pSet | pFrozenset
deriving DecidableEq, Repr

/-- A Python type as observed by the engine: a primitive/container type, the
open type `object`, `Any`, `None`, a string (forward-reference)
annotated type, a parameterized generic (something with `__origin__`,
carrying its `__module__`), or a nominal class identified by name. -/
inductive Ty where
  | prim : PrimKind → Ty
  | obj : Ty
  | anyTy : Ty
  | noneTy : Ty
  | strAnn : String → Ty
  | generic : String → Ty
  | cls : String → Ty
deriving DecidableEq, Repr

/-- Modelled from the spec: the caching-strategy selector.  The enum's own
source file (caching.py) is not under src/; spec sections 3 and 6 fix a
closed two-valued selector {Disabled, Memoized}, and the repository's
tests name the members DISABLED and NOT_THREAD_SAFE (the memoizing one).
module.py dispatches on exactly these two values. -/
inductive CachingStrategy where
  | notThreadSafe
  | disabled
deriving DecidableEq, Repr

/-- A runtime value: a primitive constant, a reference into the heap, the
class object used for placeholder reads, or None. -/
inductive Value where
  | vInt : Int → Value
  | vStr : String → Value
  | ref : Nat → Value
  | clsObj : String → Value
  | vNone : Value
deriving DecidableEq, Repr

/-- A class-level attribute as the decorators see it: an ordinary concrete
value, a placeholder (a class object whose `__name__` equals the attribute
name, treated as annotation-only by `needs_implementation`), a forwarding
property installed by `law_of_demeter`, or a factory accessor installed by
`module`. -/
inductive AttrVal where
  | concrete : Value → AttrVal
  | placeholderSelf : AttrVal
  | fwdProp : String → String → AttrVal
  | factoryProp : Ty → CachingStrategy → AttrVal
deriving DecidableEq, Repr

/-- Static facts about one class, mirroring what the Python code can observe:
its MRO (self first, `object` omitted since the sources skip it), its own
resolved annotations and whether `get_type_hints` succeeds on it, its
class-level attributes, constructor presence and annotations, source-scan
evidence for `self.x = ...` assignments in `__init__`, whether a nullary
instantiation succeeds, the instance dict such an instantiation produces,
and whether `__module__ == "builtins"`. -/
structure ClassInfo where
  mro : List String
  ownAnn : List (String × Ty)
  annOk : Bool
  ownAttrs : List (String × AttrVal)
  hasInit : Bool
  initAnn : List (String × Ty)
  initAnnOk : Bool
  ctorSrcOk : Bool
  ctorAssigns : List String
  nullaryOk : Bool
  initDict : List (String × Value)
  builtinModule : Bool
deriving DecidableEq, Repr

/-- The table of classes known to the engine. -/
abbrev Env := List (String × ClassInfo)

/-- Embeds type_utils.get_all_type_hints: traverse the MRO in reverse order
so child annotations override parent ones; a base whose hints cannot be
resolved is skipped. -/
def getAllTypeHints (env : Env) (c : String) : List (String × Ty) :=
  match lookupA env c with
  | none => []
  | some info =>
      info.mro.reverse.foldl
        (fun acc b =>
          match lookupA env b with
          | none => acc
          | some bi => if bi.annOk then updateAll acc bi.ownAnn else acc)
        []

/-- Embeds type_utils.safe_get_type_hints: resolved hints when possible,
falling back to the raw own annotations of the class. -/
def safeGetTypeHints (env : Env) (c : String) : List (String × Ty) :=
  match lookupA env c with
  | none => []
  | some info => if info.annOk then getAllTypeHints env c else info.ownAnn

/-- True exactly when the attribute value is the annotation placeholder
(`inspect.isclass(attr) and attr.__name__ == attr_name`). -/
def attrIsPlaceholder : AttrVal → Bool
  | .placeholderSelf => true
  | _ => false

/-- One step of the needs_implementation scan: the class named b either
lacks the attribute or holds only the placeholder. -/
def implFree (env : Env) (name b : String) : Bool :=
  match lookupA env b with
  | none => true
  | some bi =>
      match lookupA bi.ownAttrs name with
      | none => true
      | some a => attrIsPlaceholder a

/-- Embeds type_utils.needs_implementation: an attribute needs synthesis
unless some class of the MRO provides a non-placeholder value for it. -/
def needsImplementation (env : Env) (c : String) (name : String) : Bool :=
  match lookupA env c with
  | none => true
  | some info => info.mro.all (implFree env name)

/-- Python `hasattr(cls, name)`: the attribute is present somewhere along the
MRO (placeholders included, since they are ordinary class attributes). -/
def hasattrMro (env : Env) (c : String) (name : String) : Bool :=
  match lookupA env c with
  | none => false
  | some info =>
      info.mro.any (fun b =>
        match lookupA env b with
        | none => false
        | some bi => (lookupA bi.ownAttrs name).isSome)

/-- The first binding for an attribute name along a list of classes. -/
def firstAttr (env : Env) (name : String) : List String → Option AttrVal
  | [] => none
  | b :: rest =>
      match lookupA env b with
      | none => firstAttr env name rest
      | some bi =>
          match lookupA bi.ownAttrs name with
          | some v => some v
          | none => firstAttr env name rest

/-- Python `getattr(cls, name)` restricted to class bodies: the first value
found along the MRO. -/
def lookupAttrMro (env : Env) (c : String) (name : String) : Option AttrVal :=
  match lookupA env c with
  | none => none
  | some info => firstAttr env name info.mro

/-- True for values `inspect.isclass` accepts: nominal classes, `object`,
and the primitive/container types (which are classes in Python). -/
def tyIsClass : Ty → Bool
  | .cls _ => true
  | .obj => true
  | .prim _ => true
  | _ => false

/-- Python `issubclass(a, b)` on the modelled types: everything is a subclass
of `object`; `bool` is a subclass of `int`; a nominal class is a subclass of
every entry of its MRO. -/
def pySubclass (env : Env) (a b : Ty) : Bool :=
  if b = Ty.obj then true
  else
    match a, b with
    | .prim p, .prim q => p = q || (p = .pBool && q = .pInt)
    | .cls c1, .cls c2 =>
        (match lookupA env c1 with
         | some i => c1 = c2 || i.mro.contains c2
         | none => c1 = c2)
    | _, _ => false

/-- Embeds type_utils.is_type_compatible(expected_type, actual_type): the
permissive checker — None/Any/forward references are compatible, equal
types are compatible, two concrete classes check nominal subtyping, and
everything else (generics included) is conservatively accepted. -/
def isTypeCompatible (env : Env) (expected actual : Ty) : Bool :=
  if expected = Ty.noneTy || actual = Ty.noneTy then true
  else if expected = Ty.anyTy || actual = Ty.anyTy then true
  else if (match expected with | .strAnn _ => true | _ => false) ||
          (match actual with | .strAnn _ => true | _ => false) then true
  else if expected = actual then true
  else if tyIsClass expected && tyIsClass actual then pySubclass env actual expected
  else true

/-- Membership of the eleven-element primitive/container tuple used by
module.py both in `_can_create_type` and in the silent-skip check. -/
def isPrim11 : Ty → Bool
  | .prim _ => true
  | _ => false

/-- Embeds module._can_create_type: None/Any, string annotations, primitive
and container types are rejected; otherwise the type must expose `__init__`
and live outside the builtins module.  Note that constructor arity is never
examined. -/
def canCreateType (env : Env) (t : Ty) : Bool :=
  match t with
  | .noneTy => false
  | .anyTy => false
  | .strAnn _ => false
  | .prim _ => false
  | .obj => false
  | .generic m => m ≠ "builtins"
  | .cls c =>
      match lookupA env c with
      | none => false
      | some i => i.hasInit && !i.builtinModule

/-- Python exceptions the engine raises or propagates.  The
`typeErrorFailedToCreate` constructor records the wrapping performed by the
factory (`raise TypeError(f"Failed to create ...") from e`), and
`typeErrorKeyword` is the TypeError Python raises for the call
`is_type_compatible(provided_type=..., required_type=...)` whose keyword
names do not occur in the callee signature `(expected_type, actual_type)`. -/
inductive PyErr where
  | attrError : String → PyErr
  | typeErrorKeyword : PyErr
  | typeErrorUnsatisfied : String → PyErr
  | typeErrorNoCtor : String → PyErr
  | ctorError : String → PyErr
  | typeErrorFailedToCreate : String → PyErr → PyErr
  | resolutionError : String → PyErr
  | fuelOut : PyErr
deriving DecidableEq, Repr

/-- A side effect observable during decoration: running the constructor of a
class (the test-instantiation fallback of `_can_resolve_annotation`). -/
inductive Effect where
  | instantiate : String → Effect
deriving DecidableEq, Repr

/-- The base-reference type lookup of law_of_demeter._can_resolve_annotation:
first the class annotations of the whole hierarchy, then the constructor
annotations (with the leading-underscore-stripped alternative). -/
def resolveBaseType (env : Env) (c : String) (b : String) : Option Ty :=
  match lookupA (getAllTypeHints env c) b with
  | some t => some t
  | none =>
      match lookupA env c with
      | none => none
      | some info =>
          if info.hasInit && info.initAnnOk then
            match lookupA info.initAnn b with
            | some t => some t
            | none =>
                if strStarts b "_" then lookupA info.initAnn (strDrop b 1)
                else none
          else none

/-- Class-level `hasattr(target_type, name)` on a modelled type.  Primitive
and generic types are modelled without forwardable members. -/
def tyHasAttr (env : Env) (t : Ty) (name : String) : Bool :=
  match t with
  | .cls c => hasattrMro env c name
  | _ => false

/-- `safe_get_type_hints(target_type)` on a modelled type. -/
def tySafeHints (env : Env) (t : Ty) : List (String × Ty) :=
  match t with
  | .cls c => safeGetTypeHints env c
  | _ => []

/-- Embeds law_of_demeter._can_resolve_annotation.  Returns the verdict
together with the decoration-time effects it performed (the
test-instantiation probe), or the TypeError the code raises.  The final
type-compatibility branch faithfully reproduces the source: the call
`is_type_compatible(provided_type=..., required_type=...)` does not match
the callee signature `(expected_type, actual_type)`, so whenever the target
type carries an annotation for the member Python raises a TypeError about
the unexpected keyword argument before any compatibility logic runs. -/
def canResolveAnn (env : Env) (c b target : String) (_srcTy : Ty) :
    Except PyErr (Bool × List Effect) :=
  match resolveBaseType env c b with
  | none => .ok (true, [])
  | some t =>
      if t = Ty.obj then .ok (true, [])
      else if strStarts target "_" then .ok (false, [])
      else
        let hasAttr := tyHasAttr env t target
        let hasAnn := (lookupA (tySafeHints env t) target).isSome
        if !(hasAttr || hasAnn) then
          match t with
          | .cls cn =>
              (match lookupA env cn with
               | none => .ok (false, [])
               | some i =>
                   if i.hasInit && i.ctorSrcOk && i.ctorAssigns.contains target then
                     .ok (true, [])
                   else
                     let eff := [Effect.instantiate cn]
                     if i.nullaryOk && (lookupA i.initDict target).isSome then
                       .ok (true, eff)
                     else .ok (false, eff))
          | _ => .ok (false, [])
        else
          if hasAnn then .error PyErr.typeErrorKeyword
          else .ok (true, [])

/-- Embeds law_of_demeter._should_handle_annotation: an empty prefix handles
only public names, a non-empty prefix handles names starting with it. -/
def shouldHandleAnn (name pfx : String) : Bool :=
  if pfx = "" then !(strStarts name "_") else strStarts name pfx

/-- Installs a class attribute on `c` (Python `setattr(cls, name, value)`). -/
def setAttrEnv (env : Env) (c name : String) (v : AttrVal) : Env :=
  match lookupA env c with
  | none => env
  | some i => insertA env c { i with ownAttrs := insertA i.ownAttrs name v }

/-- One iteration of the decoration loop of law_of_demeter: skip names not
matching the prefix convention, skip implemented names, skip the base
reference itself, run the resolvability analysis, and install a forwarding
property on success. -/
def lodSlotStep (b pfx c : String) (acc : Env × List Effect)
    (p : String × Ty) : Except PyErr (Env × List Effect) :=
  if !shouldHandleAnn p.1 pfx then .ok acc
  else if !needsImplementation acc.1 c p.1 then .ok acc
  else
    let target := strDrop p.1 (strLen pfx)
    if p.1 = b then .ok acc
    else
      match canResolveAnn acc.1 c b target p.2 with
      | .error e => .error e
      | .ok (r, effs2) =>
          if r then
            .ok (setAttrEnv acc.1 c p.1 (.fwdProp b target), acc.2 ++ effs2)
          else .ok (acc.1, acc.2 ++ effs2)

/-- Embeds the law_of_demeter(base_ref, prefix=...) class decorator: the
annotations are collected once, then each one is processed in order. -/
def applyLod (b pfx : String) (env : Env) (c : String) :
    Except PyErr (Env × List Effect) :=
  (getAllTypeHints env c).foldlM (lodSlotStep b pfx c) (env, [])

/-- One iteration of the decoration loop of module._apply_module_decorator:
skip implemented names, skip names already present on the class, raise for
unsatisfiable non-primitive types, silently skip primitives, and install a
factory accessor otherwise. -/
def modSlotStep (strat : CachingStrategy) (c : String) (env : Env)
    (p : String × Ty) : Except PyErr Env :=
  if !needsImplementation env c p.1 then .ok env
  else if hasattrMro env c p.1 then .ok env
  else if !canCreateType env p.2 then
    if isPrim11 p.2 then .ok env
    else .error (PyErr.typeErrorUnsatisfied p.1)
  else .ok (setAttrEnv env c p.1 (.factoryProp p.2 strat))

/-- Embeds module._apply_module_decorator. -/
def applyModule (strat : CachingStrategy) (env : Env) (c : String) :
    Except PyErr Env :=
  (getAllTypeHints env c).foldlM (modSlotStep strat c) env

/-- Decidable equality for Except results, so that concrete runs of the
embedded engine can be checked by evaluation. -/
instance {e a : Type} [DecidableEq e] [DecidableEq a] :
    DecidableEq (Except e a) := fun x y =>
  match x, y with
  | .ok v1, .ok v2 =>
      if h : v1 = v2 then .isTrue (by rw [h])
      else .isFalse (by intro hc; cases hc; exact h rfl)
  | .error e1, .error e2 =>
      if h : e1 = e2 then .isTrue (by rw [h])
      else .isFalse (by intro hc; cases hc; exact h rfl)
  | .ok _, .error _ => .isFalse (by intro hc; cases hc)
  | .error _, .ok _ => .isFalse (by intro hc; cases hc)

/-- A runtime instance: its class, its instance dict, and the factory-attached
wiring state (`_parent_instance`, `_dependency_map`, `_setup_dependencies`). -/
structure Instance where
  cls : String
  idict : List (String × Value)
  depMap : List (String × String)
  pendingSetup : Bool
  parent : Option Nat
deriving DecidableEq, Repr

/-- The runtime world: the (decorated) class table, the heap of instances,
the per-class count of `__getattribute__` wrapper layers installed by the
factory (the source assigns `instance.__class__.__getattribute__` a wrapper
closing over the previously installed hook, so the layering is class-global
state), and the allocator. -/
structure World where
  classes : Env
  heap : List (Nat × Instance)
  hookDepth : List (String × Nat)
  nextId : Nat
deriving DecidableEq, Repr

/-- The wrapper-layer count currently installed on a class. -/
def hookAt (w : World) (c : String) : Nat :=
  (lookupA w.hookDepth c).getD 0

/-- Embeds the dependency-map computation of the factory (module.py lines
52-64): for each annotated name of the freshly created instance, map it to a
parent slot by exact match, else by the leading-underscore-stripped
alternative. -/
def computeDependencyMap (env : Env) (dep owner : String) :
    List (String × String) :=
  let ph := getAllTypeHints env owner
  (getAllTypeHints env dep).foldl
    (fun m p =>
      if (lookupA ph p.1).isSome then m ++ [(p.1, p.1)]
      else if strStarts p.1 "_" && (lookupA ph (strDrop p.1 1)).isSome then
        m ++ [(p.1, strDrop p.1 1)]
      else m)
    []

/-- The class of the owner instance (`type(self_instance)`). -/
def ownerClsOf (w : World) (ownerId : Nat) : String :=
  match lookupA w.heap ownerId with
  | some oi => oi.cls
  | none => ""

/-- The dependency instance built by the factory: the nullary-constructed
instance dict, the back-reference to the owner, the computed dependency map
and — when that map is non-empty — the pending one-shot setup marker. -/
def depInstOf (w : World) (ownerId : Nat) (cn : String) (i : ClassInfo) :
    Instance :=
  let dmap := computeDependencyMap w.classes cn (ownerClsOf w ownerId)
  { cls := cn, idict := i.initDict, depMap := dmap,
    pendingSetup := !dmap.isEmpty, parent := some ownerId }

/-- The class-hook table after one factory invocation: when the dependency
map is non-empty the dependency class's `__getattribute__` is replaced by a
wrapper around the previously installed hook, adding one layer. -/
def hookAfter (w : World) (cn : String)
    (dmap : List (String × String)) : List (String × Nat) :=
  if dmap.isEmpty then w.hookDepth
  else insertA w.hookDepth cn (hookAt w cn + 1)

/-- The world after a successful factory invocation. -/
def postFactory (w : World) (ownerId : Nat) (cn : String) (i : ClassInfo) :
    World :=
  { classes := w.classes,
    heap := w.heap ++ [(w.nextId, depInstOf w ownerId cn i)],
    hookDepth :=
      hookAfter w cn (computeDependencyMap w.classes cn (ownerClsOf w ownerId)),
    nextId := w.nextId + 1 }

/-- The body of the factory closure of module._create_factory_method before
exception wrapping: instantiate the declared type with no arguments, record
the back-reference to the owner, compute the dependency map, store the
pending one-shot setup when the map is non-empty, and patch the class-level
attribute hook (one more wrapper layer). -/
def factoryCreateInner (w : World) (ownerId : Nat) (ty : Ty) :
    Except PyErr (Value × World) :=
  match ty with
  | .cls cn =>
      (match lookupA w.classes cn with
       | none => .error (PyErr.attrError cn)
       | some i =>
           if !i.hasInit then .error (PyErr.typeErrorNoCtor cn)
           else if !i.nullaryOk then .error (PyErr.ctorError cn)
           else .ok (.ref w.nextId, postFactory w ownerId cn i))
  | _ => .error (PyErr.ctorError "")

/-- Embeds the factory closure including its catch-all exception wrapping:
any failure is re-raised as `TypeError(f"Failed to create {attr_name}: ...")
from e`. -/
def factoryCreate (w : World) (ownerId : Nat) (attrName : String) (ty : Ty) :
    Except PyErr (Value × World) :=
  match factoryCreateInner w ownerId ty with
  | .ok r => .ok r
  | .error e => .error (PyErr.typeErrorFailedToCreate attrName e)

/-- The cached_property accessor produced under NOT_THREAD_SAFE: the value
stored in the owner instance dict wins; on a miss the factory runs once and
its result is stored there. -/
def cachedFactoryGet (w : World) (o : Nat) (slot : String) (ty : Ty) :
    Except PyErr (Value × World) :=
  match lookupA w.heap o with
  | none => .error (PyErr.attrError slot)
  | some inst =>
      match lookupA inst.idict slot with
      | some v => .ok (v, w)
      | none =>
          match factoryCreate w o slot ty with
          | .error e => .error e
          | .ok (v, w1) =>
              match lookupA w1.heap o with
              | none => .ok (v, w1)
              | some inst1 =>
                  .ok (v, { w1 with
                    heap := insertA w1.heap o
                      { inst1 with idict := insertA inst1.idict slot v } })

/-- The owner-side store performed by cached_property on a factory miss:
the created value is recorded in the owner instance dict under the slot
name. -/
def cachedStore (w1 : World) (o : Nat) (slot : String) (inst1 : Instance)
    (v : Value) : World :=
  { w1 with
    heap := insertA w1.heap o
      { inst1 with idict := insertA inst1.idict slot v } }

/-- Python `setattr(instance, k, v)`: a class-level plain property (the
forwarding property or a DISABLED factory property) has no setter and
raises AttributeError; otherwise the instance dict is updated
(cached_property is a non-data descriptor and does not intercept stores). -/
def pySetAttr (w : World) (id : Nat) (k : String) (v : Value) :
    Except PyErr World :=
  match lookupA w.heap id with
  | none => .error (PyErr.attrError k)
  | some inst =>
      match lookupAttrMro w.classes inst.cls k with
      | some (.fwdProp _ _) => .error (PyErr.attrError k)
      | some (.factoryProp _ .disabled) => .error (PyErr.attrError k)
      | _ =>
          .ok { w with
            heap := insertA w.heap id
              { inst with idict := insertA inst.idict k v } }

/-- One mapped dependency of the one-shot setup (module.py lines 74-82):
read the mapped slot from the parent and store it on the instance, skipping
this dependency when either step raises AttributeError. -/
def setupStep (rec : World → Nat → String → Except PyErr (Value × World))
    (id pid : Nat) (w : World) (p : String × String) : Except PyErr World :=
  match rec w pid p.2 with
  | .ok (v, w1) =>
      (match pySetAttr w1 id p.1 v with
       | .ok w2 => .ok w2
       | .error (PyErr.attrError _) => .ok w1
       | .error e => .error e)
  | .error (PyErr.attrError _) => .ok w
  | .error e => .error e

/-- The forwarding-property getter of law_of_demeter (lines 318-321): read
the base reference off the instance, then read the target member off that
value.  Any error of either read propagates as raised. -/
def fwdGetVia (rec : World → Nat → String → Except PyErr (Value × World))
    (w : World) (id : Nat) (b t : String) : Except PyErr (Value × World) :=
  match rec w id b with
  | .ok (Value.ref j, w1) => rec w1 j t
  | .ok (_, _) => .error (PyErr.attrError t)
  | .error e => .error e

/-- One fuel level of attribute access.  First the patched
`__getattribute__` hook: when the requested name is mapped and the one-shot
setup is still pending, the setup runs (per-dependency AttributeErrors
swallowed) and its pending marker is then discarded.  Then ordinary
resolution: forwarding properties and DISABLED factory properties are data
descriptors and take precedence over the instance dict; cached_property and
plain class values yield to the instance dict. -/
def getAttrStep (rec : World → Nat → String → Except PyErr (Value × World))
    (w : World) (id : Nat) (name : String) :
    Except PyErr (Value × World) :=
  match lookupA w.heap id with
  | none => .error (PyErr.attrError name)
  | some inst =>
      let hooked : Except PyErr World :=
        if inst.pendingSetup && (lookupA inst.depMap name).isSome then
          match inst.parent with
          | none => .ok w
          | some pid =>
              match inst.depMap.foldlM (setupStep rec id pid) w with
              | .error e => .error e
              | .ok w1 =>
                  (match lookupA w1.heap id with
                   | none => .ok w1
                   | some inst1 =>
                       .ok { w1 with
                         heap := insertA w1.heap id
                           { inst1 with pendingSetup := false } })
        else .ok w
      match hooked with
      | .error e => .error e
      | .ok w1 =>
          match lookupA w1.heap id with
          | none => .error (PyErr.attrError name)
          | some inst1 =>
              match lookupAttrMro w1.classes inst1.cls name with
              | some (.fwdProp b t) => fwdGetVia rec w1 id b t
              | some (.factoryProp ty .notThreadSafe) =>
                  cachedFactoryGet w1 id name ty
              | some (.factoryProp ty .disabled) =>
                  factoryCreate w1 id name ty
              | some (.concrete cv) =>
                  (match lookupA inst1.idict name with
                   | some v => .ok (v, w1)
                   | none => .ok (cv, w1))
              | some .placeholderSelf =>
                  (match lookupA inst1.idict name with
                   | some v => .ok (v, w1)
                   | none => .ok (.clsObj name, w1))
              | none =>
                  (match lookupA inst1.idict name with
                   | some v => .ok (v, w1)
                   | none => .error (PyErr.attrError name))

/-- Fuel-indexed attribute access (`getattr(instance, name)`). -/
def getAttr : Nat → World → Nat → String → Except PyErr (Value × World)
  | 0, _, _, _ => .error PyErr.fuelOut
  | f + 1, w, id, name => getAttrStep (getAttr f) w id name

/-- The value of an access result, ignoring the world. -/
def resVal (r : Except PyErr (Value × World)) : Option Value :=
  match r with
  | .ok (v, _) => some v
  | .error _ => none

/-- The error of an access result, if any. -/
def resErr (r : Except PyErr (Value × World)) : Option PyErr :=
  match r with
  | .ok _ => none
  | .error e => some e

/-- The environment produced by a law_of_demeter decoration, with the
original environment on failure. -/
def lodEnv (env : Env) (r : Except PyErr (Env × List Effect)) : Env :=
  match r with
  | .ok (e, _) => e
  | .error _ => env

/-- The effects produced by a law_of_demeter decoration. -/
def lodEffs (r : Except PyErr (Env × List Effect)) : List Effect :=
  match r with
  | .ok (_, effs) => effs
  | .error _ => []

/-- Modelled from the spec: the Resolution Chain Runtime of section 4.5,
which is absent from the source (the source getter reads through a single
base reference fixed at decoration time).  On access it tries each declared
base-reference name in order, falling through to the next candidate when
the base read or the member read fails, retries the originally-configured
name verbatim, and raises a resolution error when everything failed. -/
def chainResolveSpecAux (fuel : Nat) (w : World) (id : Nat) (target : String) :
    List String → Option (Value × World)
  | [] => none
  | b :: rest =>
      match getAttr fuel w id b with
      | .ok (Value.ref j, w1) =>
          (match getAttr fuel w1 j target with
           | .ok r => some r
           | .error _ => chainResolveSpecAux fuel w id target rest)
      | _ => chainResolveSpecAux fuel w id target rest

/-- Modelled from the spec: the full chain — declared names
most-recently-applied first, then the original name as last retry. -/
def chainResolveSpec (fuel : Nat) (w : World) (id : Nat)
    (decls : List String) (orig target : String) :
    Except PyErr (Value × World) :=
  match chainResolveSpecAux fuel w id target (decls ++ [orig]) with
  | some r => .ok r
  | none => .error (PyErr.resolutionError target)

/-- A default class record: a plain user class with no annotations, no class
attributes, a working nullary constructor that sets nothing, and resolvable
hints. -/
def plainClass (name : String) : ClassInfo :=
  { mro := [name], ownAnn := [], annOk := true, ownAttrs := [],
    hasInit := true, initAnn := [], initAnnOk := true,
    ctorSrcOk := true, ctorAssigns := [], nullaryOk := true,
    initDict := [], builtinModule := false }

/-- Scenario for the stacked-decorator claims: a module class and a config
class both expose a public `shared` member with different values, and the
controller declares `_module`, `_config` and `_shared` slots. -/
def envC1 : Env :=
  [("ModA", { plainClass "ModA" with
      ownAttrs := [("shared", .concrete (.vStr "from-module"))] }),
   ("CfgA", { plainClass "CfgA" with
      ownAttrs := [("shared", .concrete (.vStr "from-config"))] }),
   ("Ctl", { plainClass "Ctl" with
      ownAnn := [("_module", .cls "ModA"), ("_config", .cls "CfgA"),
                 ("_shared", .prim .pStr)],
      nullaryOk := false })]

/-- The controller class after the stacked decoration
`@law_of_demeter("_config")` over `@law_of_demeter("_module")` (the inner,
`_module` one is applied first). -/
def envC1d : Env :=
  let e1 := lodEnv envC1 (applyLod "_module" "_" envC1 "Ctl")
  lodEnv e1 (applyLod "_config" "_" e1 "Ctl")

/-- A controller instance holding references to a module and a config. -/
def ctlInstC1 : Instance :=
  { cls := "Ctl", idict := [("_module", .ref 1), ("_config", .ref 2)],
    depMap := [], pendingSetup := false, parent := none }

/-- A world holding one controller wired to one module and one config
instance. -/
def wC1 : World :=
  { classes := envC1d,
    heap := [(0, ctlInstC1),
             (1, { cls := "ModA", idict := [], depMap := [],
                   pendingSetup := false, parent := none }),
             (2, { cls := "CfgA", idict := [], depMap := [],
                   pendingSetup := false, parent := none })],
    hookDepth := [], nextId := 3 }

/-- The controller environment after only the inner decoration
`@law_of_demeter("_module")`. -/
def e1C1 : Env := lodEnv envC1 (applyLod "_module" "_" envC1 "Ctl")

/-- The environment produced by a module decoration, with the original
environment on failure. -/
def modEnv (env : Env) (r : Except PyErr Env) : Env :=
  match r with
  | .ok e => e
  | .error _ => env

/-- Scenario for the decoration-side-effect claim: the config class exposes
`dyn` only as a constructor-created instance attribute that the source scan
does not see, so the analyzer falls back to test-instantiation. -/
def envC2 : Env :=
  [("CfgB", { plainClass "CfgB" with initDict := [("dyn", .vInt 1)] }),
   ("CtlB", { plainClass "CtlB" with
      ownAnn := [("cfg", .cls "CfgB"), ("_dyn", .prim .pInt)] })]

/-- Scenario for the constructibility claim: a module slot whose declared
type has a constructor requiring arguments (nullary instantiation fails). -/
def envC3 : Env :=
  [("NeedsArgs", { plainClass "NeedsArgs" with nullaryOk := false }),
   ("ModC3", { plainClass "ModC3" with ownAnn := [("svc", .cls "NeedsArgs")] })]

/-- The module class after decoration. -/
def envC3d : Env := modEnv envC3 (applyModule .notThreadSafe envC3 "ModC3")

/-- One undecorated module instance of the constructibility scenario. -/
def wC3 : World :=
  { classes := envC3d,
    heap := [(0, { cls := "ModC3", idict := [], depMap := [],
                   pendingSetup := false, parent := none })],
    hookDepth := [], nextId := 1 }

/-- Scenario for the compatibility-check claim: the base class carries a
resolvable `timeout: int` annotation and the consuming slot is also `int`,
so the declared types agree exactly. -/
def envC5 : Env :=
  [("Config5", { plainClass "Config5" with
      ownAnn := [("timeout", .prim .pInt)],
      ownAttrs := [("timeout", .concrete (.vInt 300))] }),
   ("Ctl5", { plainClass "Ctl5" with
      ownAnn := [("config", .cls "Config5"), ("_timeout", .prim .pInt)] })]

/-- Scenario for the private-target claim with an unknown base type: `cfg`
has no annotation anywhere, and the slot `__secret` yields the private
target name `_secret` after prefix stripping. -/
def envC7 : Env :=
  [("Ctl7", { plainClass "Ctl7" with ownAnn := [("__secret", .prim .pInt)] })]

/-- Variant with a concretely known base type. -/
def envC7w : Env :=
  [("CfgW", plainClass "CfgW"),
   ("Ctl7w", { plainClass "Ctl7w" with
      ownAnn := [("cfg", .cls "CfgW"), ("__secret", .prim .pInt)] })]

/-- Scenario for the error-propagation claim: a DISABLED factory slot whose
dependency class cannot be instantiated without arguments. -/
def envC8 : Env :=
  [("D8", { plainClass "D8" with nullaryOk := false }),
   ("Own8", { plainClass "Own8" with
      ownAttrs := [("svc", .factoryProp (.cls "D8") .disabled)] })]

/-- One owner instance of the error-propagation scenario. -/
def wC8 : World :=
  { classes := envC8,
    heap := [(0, { cls := "Own8", idict := [], depMap := [],
                   pendingSetup := false, parent := none })],
    hookDepth := [], nextId := 1 }

/-- A class with a forwarding property whose base reference is never set. -/
def envC8w : Env :=
  [("Own8w", { plainClass "Own8w" with
      ownAttrs := [("_x", .fwdProp "_cfg" "x")] })]

/-- An instance of that class with an empty instance dict. -/
def instC8w : Instance :=
  { cls := "Own8w", idict := [], depMap := [], pendingSetup := false,
    parent := none }

/-- World for the forwarding-error-propagation witness. -/
def wC8w : World :=
  { classes := envC8w, heap := [(0, instC8w)], hookDepth := [], nextId := 1 }

/-- Scenario for the memoization claim: a module class with a
NOT_THREAD_SAFE factory slot for a nullary-constructible service. -/
def envC6 : Env :=
  [("Svc6", plainClass "Svc6"),
   ("Mod6", { plainClass "Mod6" with
      ownAttrs := [("svc", .factoryProp (.cls "Svc6") .notThreadSafe)] })]

/-- A fresh owner instance of the memoization scenario. -/
def inst6a : Instance :=
  { cls := "Mod6", idict := [], depMap := [], pendingSetup := false,
    parent := none }

/-- Two distinct owner instances sharing one world. -/
def wC6 : World :=
  { classes := envC6, heap := [(0, inst6a), (1, inst6a)], hookDepth := [],
    nextId := 2 }

/-- Scenario for the class-hook claim: the dependency class declares `_cfg`
and the owner declares `cfg`, so the computed dependency map is non-empty
and every factory invocation patches the dependency class. -/
def envC9 : Env :=
  [("Dep9", { plainClass "Dep9" with ownAnn := [("_cfg", .prim .pInt)] }),
   ("Mod9", { plainClass "Mod9" with
      ownAnn := [("cfg", .prim .pInt)],
      ownAttrs := [("svc", .factoryProp (.cls "Dep9") .disabled),
                   ("cfg", .concrete (.vInt 42))] })]

/-- One owner instance of the class-hook scenario. -/
def wC9 : World :=
  { classes := envC9,
    heap := [(0, { cls := "Mod9", idict := [], depMap := [],
                   pendingSetup := false, parent := none })],
    hookDepth := [], nextId := 1 }

/-- Scenario for the no-overwrite claim: the slot `_x` already carries a
concrete class attribute next to its annotation. -/
def envC10 : Env :=
  [("C10", { plainClass "C10" with
      ownAnn := [("_x", .prim .pInt)],
      ownAttrs := [("_x", .concrete (.vInt 7))] })]

/-- The one-shot wiring state of a factory-created dependency instance:
whether `_setup_dependencies` is still stored on the instance, whether
`_dependency_map` is still stored (the source never deletes it), and how
many times the setup callable has run. -/
structure DepState where
  pendingSetup : Bool
  mapPresent : Bool
  setupRuns : Nat
deriving DecidableEq, Repr

/-- A tree of attribute accesses on one dependency instance: the accessed
name together with the accesses performed re-entrantly on the same instance
while the triggered setup is still running. -/
inductive AccessTree where
  | node : String → List AccessTree → AccessTree

mutual
/-- Embeds patched_getattribute (module.py lines 90-103) as a state
transformer: when the accessed name is in the dependency map and
`_setup_dependencies` is still present, the setup callable runs (counted by
setupRuns) while the pending marker is still in place — so the re-entrant
accesses of the child list see it — and only after it returns is the marker
deleted (a re-entrant run deletes it first; the outer deletion then raises
KeyError, which the source swallows).  `_dependency_map` is never deleted. -/
def patchedStep (dmap : List String) (st : DepState) : AccessTree → DepState
  | .node name during =>
      if dmap.contains name && st.pendingSetup then
        let st1 :=
          patchedSteps dmap { st with setupRuns := st.setupRuns + 1 } during
        { st1 with pendingSetup := false }
      else st

/-- A sequence of accesses, left to right. -/
def patchedSteps (dmap : List String) (st : DepState) :
    List AccessTree → DepState
  | [] => st
  | t :: ts => patchedSteps dmap (patchedStep dmap st t) ts
end

/-- True for an access without re-entrant accesses during setup. -/
def isLeaf : AccessTree → Bool
  | .node _ during => during.isEmpty

/-- True when some access of the list names a mapped dependency. -/
def accessesMapped (dmap : List String) (ts : List AccessTree) : Bool :=
  ts.any (fun t => match t with | .node n _ => dmap.contains n)

/-- n successive accesses of a DISABLED factory slot: the plain property
re-invokes the factory on every access. -/
def disabledAccessN (slot : String) (ty : Ty) (o : Nat) : Nat → World → World
  | 0, w => w
  | n + 1, w =>
      match factoryCreate w o slot ty with
      | .ok (_, w1) => disabledAccessN slot ty o n w1
      | .error _ => w


theorem lookupA_insertA_self {κ α : Type} [DecidableEq κ]
    (m : List (κ × α)) (k : κ) (v : α) :
    lookupA (insertA m k v) k = some v := by
  induction m with
  | nil => simp [insertA, lookupA]
  | cons hd tl ih =>
      by_cases h : hd.1 = k
      · simp [insertA, lookupA, h]
      · simp [insertA, lookupA, h, ih]

theorem lookupA_insertA_ne {κ α : Type} [DecidableEq κ]
    (m : List (κ × α)) (k k1 : κ) (v : α) (h : k ≠ k1) :
    lookupA (insertA m k v) k1 = lookupA m k1 := by
  induction m with
  | nil => simp [insertA, lookupA, h]
  | cons hd tl ih =>
      by_cases hh : hd.1 = k
      · simp [insertA, lookupA, hh, h]
      · simp [insertA, lookupA, hh, ih]

theorem lookupA_append_some {κ α : Type} [DecidableEq κ]
    (m1 m2 : List (κ × α)) (k : κ) (v : α) (h : lookupA m1 k = some v) :
    lookupA (m1 ++ m2) k = some v := by
  induction m1 with
  | nil => simp [lookupA] at h
  | cons hd tl ih =>
      by_cases hh : hd.1 = k
      · simp [lookupA, hh] at h ⊢; exact h
      · simp [lookupA, hh] at h ⊢; exact ih h

theorem lookupA_setAttrEnv_ne_cls (env : Env) (c c2 n : String) (v : AttrVal)
    (h : c ≠ c2) :
    lookupA (setAttrEnv env c n v) c2 = lookupA env c2 := by
  unfold setAttrEnv
  cases hc : lookupA env c with
  | none => rfl
  | some i => exact lookupA_insertA_ne _ _ _ _ h

theorem lookupA_setAttrEnv_self (env : Env) (c n : String) (v : AttrVal)
    (i : ClassInfo) (h : lookupA env c = some i) :
    lookupA (setAttrEnv env c n v) c =
      some { i with ownAttrs := insertA i.ownAttrs n v } := by
  unfold setAttrEnv
  rw [h]
  exact lookupA_insertA_self _ _ _

theorem firstAttr_cons_skip (env : Env) (name b : String) (rest : List String)
    (h : lookupA env b = none) :
    firstAttr env name (b :: rest) = firstAttr env name rest := by
  simp [firstAttr, h]

theorem firstAttr_cons_hit (env : Env) (name b : String) (rest : List String)
    (bi : ClassInfo) (v : AttrVal) (h : lookupA env b = some bi)
    (h2 : lookupA bi.ownAttrs name = some v) :
    firstAttr env name (b :: rest) = some v := by
  simp [firstAttr, h, h2]

theorem firstAttr_cons_miss (env : Env) (name b : String) (rest : List String)
    (bi : ClassInfo) (h : lookupA env b = some bi)
    (h2 : lookupA bi.ownAttrs name = none) :
    firstAttr env name (b :: rest) = firstAttr env name rest := by
  simp [firstAttr, h, h2]

theorem setAttrEnv_absent (env : Env) (c n : String) (v : AttrVal)
    (h : lookupA env c = none) : setAttrEnv env c n v = env := by
  unfold setAttrEnv; rw [h]

theorem firstAttr_setAttr_ne (env : Env) (c n name : String) (v : AttrVal)
    (h : n ≠ name) (l : List String) :
    firstAttr (setAttrEnv env c n v) name l = firstAttr env name l := by
  induction l with
  | nil => rfl
  | cons b rest ih =>
      by_cases hb : c = b
      · subst hb
        cases hc : lookupA env c with
        | none => rw [setAttrEnv_absent env c n v hc]
        | some i =>
            cases ha : lookupA i.ownAttrs name with
            | none =>
                rw [firstAttr_cons_miss env name c rest i hc ha,
                  firstAttr_cons_miss (setAttrEnv env c n v) name c rest
                    { i with ownAttrs := insertA i.ownAttrs n v }
                    (lookupA_setAttrEnv_self env c n v i hc)
                    (by rw [lookupA_insertA_ne i.ownAttrs n name v h]; exact ha)]
                exact ih
            | some a =>
                rw [firstAttr_cons_hit env name c rest i a hc ha,
                  firstAttr_cons_hit (setAttrEnv env c n v) name c rest
                    { i with ownAttrs := insertA i.ownAttrs n v } a
                    (lookupA_setAttrEnv_self env c n v i hc)
                    (by rw [lookupA_insertA_ne i.ownAttrs n name v h]; exact ha)]
      · cases hc : lookupA env b with
        | none =>
            rw [firstAttr_cons_skip env name b rest hc,
              firstAttr_cons_skip (setAttrEnv env c n v) name b rest
                (by rw [lookupA_setAttrEnv_ne_cls env c b n v hb]; exact hc)]
            exact ih
        | some bi =>
            cases ha : lookupA bi.ownAttrs name with
            | none =>
                rw [firstAttr_cons_miss env name b rest bi hc ha,
                  firstAttr_cons_miss (setAttrEnv env c n v) name b rest bi
                    (by rw [lookupA_setAttrEnv_ne_cls env c b n v hb]; exact hc) ha]
                exact ih
            | some a =>
                rw [firstAttr_cons_hit env name b rest bi a hc ha,
                  firstAttr_cons_hit (setAttrEnv env c n v) name b rest bi a
                    (by rw [lookupA_setAttrEnv_ne_cls env c b n v hb]; exact hc) ha]

theorem lookupAttrMro_setAttr_ne (env : Env) (c c2 n name : String) (v : AttrVal)
    (h : n ≠ name) :
    lookupAttrMro (setAttrEnv env c n v) c2 name = lookupAttrMro env c2 name := by
  unfold lookupAttrMro
  by_cases hc2 : c = c2
  · subst hc2
    cases hc : lookupA env c with
    | none => rw [setAttrEnv_absent env c n v hc, hc]
    | some i =>
        rw [lookupA_setAttrEnv_self env c n v i hc]
        exact firstAttr_setAttr_ne env c n name v h i.mro
  · rw [lookupA_setAttrEnv_ne_cls env c c2 n v hc2]
    cases hc2e : lookupA env c2 with
    | none => rfl
    | some i2 => exact firstAttr_setAttr_ne env c n name v h i2.mro

theorem implFree_setAttr_ne (env : Env) (c n name b : String) (v : AttrVal)
    (h : n ≠ name) :
    implFree (setAttrEnv env c n v) name b = implFree env name b := by
  by_cases hb : c = b
  · subst hb
    cases hc : lookupA env c with
    | none => rw [setAttrEnv_absent env c n v hc]
    | some i =>
        simp only [implFree, lookupA_setAttrEnv_self env c n v i hc, hc,
          lookupA_insertA_ne i.ownAttrs n name v h]
  · simp only [implFree, lookupA_setAttrEnv_ne_cls env c b n v hb]

theorem needsImpl_setAttr_ne (env : Env) (c c2 n name : String) (v : AttrVal)
    (h : n ≠ name) :
    needsImplementation (setAttrEnv env c n v) c2 name =
      needsImplementation env c2 name := by
  have hf : implFree (setAttrEnv env c n v) name = implFree env name := by
    funext b; exact implFree_setAttr_ne env c n name b v h
  by_cases hc2 : c = c2
  · subst hc2
    cases hc : lookupA env c with
    | none => rw [setAttrEnv_absent env c n v hc]
    | some i =>
        simp only [needsImplementation, lookupA_setAttrEnv_self env c n v i hc,
          hc, hf]
  · simp only [needsImplementation, lookupA_setAttrEnv_ne_cls env c c2 n v hc2, hf]

theorem needsImpl_false_of_attr (env : Env) (c name b0 : String) (i bi : ClassInfo)
    (a : AttrVal) (hc : lookupA env c = some i) (hb0 : b0 ∈ i.mro)
    (hbi : lookupA env b0 = some bi) (ha : lookupA bi.ownAttrs name = some a)
    (hnp : attrIsPlaceholder a = false) :
    needsImplementation env c name = false := by
  simp only [needsImplementation, hc]
  have hfb : implFree env name b0 = false := by
    simp only [implFree, hbi, ha]; exact hnp
  cases hall : i.mro.all (implFree env name) with
  | false => rfl
  | true =>
      have := List.all_eq_true.mp hall b0 hb0
      rw [hfb] at this
      exact absurd this (by simp)

theorem firstAttr_some_exists (env : Env) (name : String) (l : List String)
    (v : AttrVal) (h : firstAttr env name l = some v) :
    ∃ b ∈ l, ∃ bi, lookupA env b = some bi ∧ lookupA bi.ownAttrs name = some v := by
  induction l with
  | nil => simp [firstAttr] at h
  | cons b rest ih =>
      cases hb : lookupA env b with
      | none =>
          rw [firstAttr_cons_skip env name b rest hb] at h
          obtain ⟨b2, hb2, bi, hbi, ha⟩ := ih h
          exact ⟨b2, List.mem_cons_of_mem b hb2, bi, hbi, ha⟩
      | some bi =>
          cases ha : lookupA bi.ownAttrs name with
          | none =>
              rw [firstAttr_cons_miss env name b rest bi hb ha] at h
              obtain ⟨b2, hb2, bi2, hbi2, ha2⟩ := ih h
              exact ⟨b2, List.mem_cons_of_mem b hb2, bi2, hbi2, ha2⟩
          | some a =>
              rw [firstAttr_cons_hit env name b rest bi a hb ha] at h
              cases h
              exact ⟨b, List.mem_cons_self b rest, bi, hb, ha⟩

theorem needsImpl_false_of_lookupAttr (env : Env) (c name : String) (v : AttrVal)
    (h : lookupAttrMro env c name = some v) (hnp : attrIsPlaceholder v = false) :
    needsImplementation env c name = false := by
  unfold lookupAttrMro at h
  cases hc : lookupA env c with
  | none => rw [hc] at h; cases h
  | some i =>
      rw [hc] at h
      obtain ⟨b0, hb0, bi, hbi, ha⟩ := firstAttr_some_exists env name i.mro v h
      exact needsImpl_false_of_attr env c name b0 i bi v hc hb0 hbi ha hnp

theorem lodSlotStep_ok_env (b pfx c : String) (acc acc2 : Env × List Effect)
    (p : String × Ty) (h : lodSlotStep b pfx c acc p = .ok acc2) :
    acc2.1 = acc.1 ∨
    (needsImplementation acc.1 c p.1 = true ∧
      ∃ t, acc2.1 = setAttrEnv acc.1 c p.1 (.fwdProp b t)) := by
  simp only [lodSlotStep] at h
  split at h
  · left; cases h; rfl
  · split at h
    · left; cases h; rfl
    · rename_i h1 h2
      split at h
      · left; cases h; rfl
      · split at h
        · cases h
        · rename_i r effs2 heq
          split at h
          · rename_i hr
            cases h
            right
            refine ⟨by simpa using h2, strDrop p.1 (strLen pfx), rfl⟩
          · left; cases h; rfl

theorem modSlotStep_ok_env (strat : CachingStrategy) (c : String)
    (env env2 : Env) (p : String × Ty) (h : modSlotStep strat c env p = .ok env2) :
    env2 = env ∨
    (needsImplementation env c p.1 = true ∧
      env2 = setAttrEnv env c p.1 (.factoryProp p.2 strat)) := by
  simp only [modSlotStep] at h
  split at h
  · left; cases h; rfl
  · split at h
    · left; cases h; rfl
    · rename_i h1 h2
      split at h
      · split at h
        · left; cases h; rfl
        · cases h
      · cases h
        right
        exact ⟨by simpa using h1, rfl⟩

theorem lodFold_keep (b pfx c name : String) (hints : List (String × Ty)) :
    ∀ (acc r : Env × List Effect),
      needsImplementation acc.1 c name = false →
      List.foldlM (lodSlotStep b pfx c) acc hints = .ok r →
      needsImplementation r.1 c name = false ∧
      (∀ c2, lookupAttrMro r.1 c2 name = lookupAttrMro acc.1 c2 name) := by
  induction hints with
  | nil =>
      intro acc r hni h
      cases h
      exact ⟨hni, fun _ => rfl⟩
  | cons p rest ih =>
      intro acc r hni h
      rw [List.foldlM_cons] at h
      cases hstep : lodSlotStep b pfx c acc p with
      | error e => rw [hstep] at h; cases h
      | ok acc1 =>
          rw [hstep] at h
          simp only [bind, Except.bind] at h
          rcases lodSlotStep_ok_env b pfx c acc acc1 p hstep with heq | ⟨hneed, t, heq⟩
          · have hni1 : needsImplementation acc1.1 c name = false := by
              rw [heq]; exact hni
            obtain ⟨h1, h2⟩ := ih acc1 r hni1 h
            exact ⟨h1, fun c2 => by rw [h2 c2, heq]⟩
          · have hpn : p.1 ≠ name := by
              intro hcontra
              rw [hcontra] at hneed
              rw [hneed] at hni
              cases hni
            have hni1 : needsImplementation acc1.1 c name = false := by
              rw [heq, needsImpl_setAttr_ne acc.1 c c p.1 name _ hpn]
              exact hni
            obtain ⟨h1, h2⟩ := ih acc1 r hni1 h
            refine ⟨h1, fun c2 => ?_⟩
            rw [h2 c2, heq, lookupAttrMro_setAttr_ne acc.1 c c2 p.1 name _ hpn]

theorem modFold_keep (strat : CachingStrategy) (c name : String)
    (hints : List (String × Ty)) :
    ∀ (env env2 : Env),
      needsImplementation env c name = false →
      List.foldlM (modSlotStep strat c) env hints = .ok env2 →
      needsImplementation env2 c name = false ∧
      (∀ c2, lookupAttrMro env2 c2 name = lookupAttrMro env c2 name) := by
  induction hints with
  | nil =>
      intro env env2 hni h
      cases h
      exact ⟨hni, fun _ => rfl⟩
  | cons p rest ih =>
      intro env env2 hni h
      rw [List.foldlM_cons] at h
      cases hstep : modSlotStep strat c env p with
      | error e => rw [hstep] at h; cases h
      | ok env1 =>
          rw [hstep] at h
          simp only [bind, Except.bind] at h
          rcases modSlotStep_ok_env strat c env env1 p hstep with heq | ⟨hneed, heq⟩
          · have hni1 : needsImplementation env1 c name = false := by
              rw [heq]; exact hni
            obtain ⟨h1, h2⟩ := ih env1 env2 hni1 h
            exact ⟨h1, fun c2 => by rw [h2 c2, heq]⟩
          · have hpn : p.1 ≠ name := by
              intro hcontra
              rw [hcontra] at hneed
              rw [hneed] at hni
              cases hni
            have hni1 : needsImplementation env1 c name = false := by
              rw [heq, needsImpl_setAttr_ne env c c p.1 name _ hpn]
              exact hni
            obtain ⟨h1, h2⟩ := ih env1 env2 hni1 h
            refine ⟨h1, fun c2 => ?_⟩
            rw [h2 c2, heq, lookupAttrMro_setAttr_ne env c c2 p.1 name _ hpn]

/-- C1 counterexample: with stacked declarations `law_of_demeter("_config")`
over `law_of_demeter("_module")` and a slot `_shared` resolvable through
both, the installed accessor is bound to `_module` — the first-applied
(innermost) declaration — and the access returns the module value; the
claimed most-recently-applied-first access-time chain would return the
config value instead, so the claim is false at this input. -/
theorem c1_counterexample :
    lookupAttrMro envC1d "Ctl" "_shared" =
      some (.fwdProp "_module" "shared") ∧
    resVal (getAttr 5 wC1 0 "_shared") = some (.vStr "from-module") ∧
    resVal (chainResolveSpec 5 wC1 0 ["_config", "_module"] "_config" "shared") =
      some (.vStr "from-config") ∧
    resVal (getAttr 5 wC1 0 "_shared") ≠
      resVal (chainResolveSpec 5 wC1 0 ["_config", "_module"] "_config" "shared") :=
  ⟨by decide, by decide, by decide, by decide⟩

/-- C2 counterexample: decorating the controller instantiates the base
class `CfgB` at decoration time (the test-instantiation fallback of the
resolvability analysis), refuting the zero-work-at-declaration claim. -/
theorem c2_counterexample :
    lodEffs (applyLod "cfg" "_" envC2 "CtlB") = [Effect.instantiate "CfgB"] ∧
    [Effect.instantiate "CfgB"] ≠ ([] : List Effect) :=
  ⟨by decide, by decide⟩

/-- C3 counterexample: a module slot whose declared type has a constructor
requiring arguments passes decoration without any unsatisfied-dependency
error (a factory is installed), and the failure only surfaces at first
access, wrapped in a creation TypeError — contradicting the claim that the
error is raised at decoration time. -/
theorem c3_counterexample :
    applyModule .notThreadSafe envC3 "ModC3" =
      .ok (setAttrEnv envC3 "ModC3" "svc"
        (.factoryProp (.cls "NeedsArgs") .notThreadSafe)) ∧
    applyModule .notThreadSafe envC3 "ModC3" ≠
      .error (PyErr.typeErrorUnsatisfied "svc") ∧
    resErr (getAttr 3 wC3 0 "svc") =
      some (.typeErrorFailedToCreate "svc" (.ctorError "NeedsArgs")) :=
  ⟨by decide, by decide, by decide⟩

/-- C4 counterexample: starting from a pending one-shot setup, an access to
the mapped slot `d` that re-entrantly accesses `d` again while the setup is
still running executes the setup twice, and the dependency map is still
present afterwards — refuting both the at-most-once-under-re-entrancy and
the map-cleared conjuncts of the claim. -/
theorem c4_counterexample :
    patchedStep ["d"] ⟨true, true, 0⟩ (.node "d" [.node "d" []]) =
      ⟨false, true, 2⟩ ∧
    (patchedStep ["d"] ⟨true, true, 0⟩ (.node "d" [.node "d" []])).setupRuns ≠ 1 ∧
    (patchedStep ["d"] ⟨true, true, 0⟩ (.node "d" [.node "d" []])).mapPresent = true :=
  ⟨by decide, by decide, by decide⟩

/-- C5: the code contradicts its own test suite.  At an input whose declared
types agree exactly (`timeout: int` forwarded into an `int` slot, so the
intended checker accepts), the analyzer raises the keyword-argument
TypeError — the call `is_type_compatible(provided_type=...,
required_type=...)` does not match the signature `(expected_type,
actual_type)` — and the whole decoration fails, where the repository's test
test_type_incompatibility_error expects a raise only for conflicting
types and with the message "types incompatible". -/
theorem c5_code_bug_eval :
    isTypeCompatible envC5 (.prim .pInt) (.prim .pInt) = true ∧
    canResolveAnn envC5 "Ctl5" "config" "timeout" (.prim .pInt) =
      .error PyErr.typeErrorKeyword ∧
    applyLod "config" "_" envC5 "Ctl5" = .error PyErr.typeErrorKeyword :=
  ⟨by decide, by decide, by decide⟩

/-- C7 counterexample: when the base reference's type is unknown (no class
or constructor annotation for `cfg`), the analyzer returns true for the
private target `_secret` — the unknown-type early return precedes the
private-name check — and the decorator then installs a forwarding property
for the private-named target, refuting the claim. -/
theorem c7_counterexample :
    canResolveAnn envC7 "Ctl7" "cfg" "_secret" (.prim .pInt) = .ok (true, []) ∧
    lookupAttrMro (lodEnv envC7 (applyLod "cfg" "_" envC7 "Ctl7"))
        "Ctl7" "__secret" = some (.fwdProp "cfg" "_secret") :=
  ⟨by decide, by decide⟩

/-- C8 counterexample: a factory accessor whose dependency constructor
raises does not propagate the original error unmodified — the access yields
the wrapping TypeError `Failed to create ...`, which differs from the
original constructor error. -/
theorem c8_counterexample :
    resErr (getAttr 3 wC8 0 "svc") =
      some (.typeErrorFailedToCreate "svc" (.ctorError "D8")) ∧
    PyErr.typeErrorFailedToCreate "svc" (.ctorError "D8") ≠
      PyErr.ctorError "D8" :=
  ⟨by decide, by decide⟩

/-- C7 amended: a target name starting with the private marker is rejected
by the analyzer exactly when the base reference's type is concretely known
and is not `object`; with an unknown or `object` base type the early
permissive returns fire first and private targets are not rejected. -/
theorem c7_amended (env : Env) (c b target : String) (ty bt : Ty)
    (hb : resolveBaseType env c b = some bt) (hobj : bt ≠ Ty.obj)
    (ht : strStarts target "_" = true) :
    canResolveAnn env c b target ty = .ok (false, []) := by
  simp only [canResolveAnn, hb]
  rw [if_neg hobj, if_pos ht]

/-- C7 amended witness: with the base type known to be the class CfgW, the
private target `_secret` is rejected. -/
theorem c7_amended_witness :
    resolveBaseType envC7w "Ctl7w" "cfg" = some (Ty.cls "CfgW") ∧
    Ty.cls "CfgW" ≠ Ty.obj ∧
    strStarts "_secret" "_" = true ∧
    canResolveAnn envC7w "Ctl7w" "cfg" "_secret" (.prim .pInt) = .ok (false, []) :=
  ⟨by decide, by decide, by decide,
    c7_amended envC7w "Ctl7w" "cfg" "_secret" (.prim .pInt) (Ty.cls "CfgW")
      (by decide) (by decide) (by decide)⟩

/-- C2 amended: the resolvability analysis is effect-free except for one
case — when the base reference's type is a concretely known class and the
target member is found neither as a class-level attribute nor as an
annotation (and the constructor source scan does not settle it), the
analyzer instantiates the base class once as a probe.  Decoration performs
no other slot access, factory invocation or wiring, and instance
construction performs none. -/
theorem c2_amended (env : Env) (c b target : String) (ty : Ty) (r : Bool)
    (effs : List Effect)
    (h : canResolveAnn env c b target ty = .ok (r, effs)) :
    effs = [] ∨
    ∃ cn, effs = [Effect.instantiate cn] ∧
      resolveBaseType env c b = some (Ty.cls cn) ∧
      tyHasAttr env (Ty.cls cn) target = false ∧
      (lookupA (tySafeHints env (Ty.cls cn)) target).isSome = false := by
  simp only [canResolveAnn] at h
  cases hrb : resolveBaseType env c b with
  | none => rw [hrb] at h; cases h; left; rfl
  | some t =>
      rw [hrb] at h
      simp only [] at h
      split at h
      · cases h; left; rfl
      · split at h
        · cases h; left; rfl
        · split at h
          · rename_i hobj hpriv hmiss
            split at h
            · rename_i cn
              split at h
              · cases h; left; rfl
              · rename_i i hi
                split at h
                · cases h; left; rfl
                · split at h
                  · cases h
                    right
                    refine ⟨cn, rfl, rfl, ?_, ?_⟩
                    · have := hmiss
                      simp only [Bool.not_eq_true', Bool.or_eq_false_iff] at this
                      exact this.1
                    · have := hmiss
                      simp only [Bool.not_eq_true', Bool.or_eq_false_iff] at this
                      exact this.2
                  · cases h
                    right
                    refine ⟨cn, rfl, rfl, ?_, ?_⟩
                    · have := hmiss
                      simp only [Bool.not_eq_true', Bool.or_eq_false_iff] at this
                      exact this.1
                    · have := hmiss
                      simp only [Bool.not_eq_true', Bool.or_eq_false_iff] at this
                      exact this.2
            · cases h; left; rfl
          · split at h
            · cases h
            · cases h; left; rfl

/-- C2 amended witness: the probe effect occurs exactly in the stated case —
the base type CfgB is known, and `dyn` is neither a class attribute nor an
annotation of it. -/
theorem c2_amended_witness :
    canResolveAnn envC2 "CtlB" "cfg" "dyn" (.prim .pInt) =
      .ok (true, [Effect.instantiate "CfgB"]) ∧
    ([Effect.instantiate "CfgB"] = ([] : List Effect) ∨
      ∃ cn, [Effect.instantiate "CfgB"] = [Effect.instantiate cn] ∧
        resolveBaseType envC2 "CtlB" "cfg" = some (Ty.cls cn) ∧
        tyHasAttr envC2 (Ty.cls cn) "dyn" = false ∧
        (lookupA (tySafeHints envC2 (Ty.cls cn)) "dyn").isSome = false) :=
  ⟨by decide,
    c2_amended envC2 "CtlB" "cfg" "dyn" (.prim .pInt) true
      [Effect.instantiate "CfgB"] (by decide)⟩

/-- C4 amended: for access sequences without re-entrancy, the one-shot setup
runs exactly once — on the first access to a mapped slot while the setup
callable is still pending — after which the pending marker is discarded.
The dependency map itself is never cleared, and (per the counterexample)
re-entrant access during the setup does re-trigger it. -/
theorem c4_amended (dmap : List String) (ts : List AccessTree) (st : DepState)
    (hleaf : ts.all isLeaf = true) :
    patchedSteps dmap st ts =
      (if st.pendingSetup && accessesMapped dmap ts then
        { pendingSetup := false, mapPresent := st.mapPresent,
          setupRuns := st.setupRuns + 1 }
      else st) := by
  induction ts generalizing st with
  | nil =>
      simp [patchedSteps, accessesMapped]
  | cons t rest ih =>
      cases t with
      | node n during =>
          rw [List.all_cons] at hleaf
          have hd : during = [] := by
            have h1 : isLeaf (.node n during) = true :=
              (Bool.and_eq_true _ _).mp hleaf |>.1
            simpa [isLeaf, List.isEmpty_iff] using h1
          have hrest : rest.all isLeaf = true :=
            (Bool.and_eq_true _ _).mp hleaf |>.2
          subst hd
          show patchedSteps dmap (patchedStep dmap st (.node n [])) rest = _
          have hacc : accessesMapped dmap (AccessTree.node n [] :: rest) =
              (dmap.contains n || accessesMapped dmap rest) := rfl
          by_cases hm : dmap.contains n = true
          · by_cases hp : st.pendingSetup = true
            · have hstep : patchedStep dmap st (.node n []) =
                  { pendingSetup := false, mapPresent := st.mapPresent,
                    setupRuns := st.setupRuns + 1 } := by
                simp only [patchedStep, patchedSteps]
                rw [hm, hp]
                rfl
              have hps1 : (patchedStep dmap st (.node n [])).pendingSetup = false := by
                rw [hstep]
              rw [ih _ hrest, hps1, Bool.false_and,
                if_neg (by decide : ¬((false : Bool) = true)), hstep, hacc, hp,
                hm, Bool.true_or, Bool.true_and, if_pos rfl]
            · have hp2 : st.pendingSetup = false := by simpa using hp
              have hstep : patchedStep dmap st (.node n []) = st := by
                simp only [patchedStep]
                rw [hp2, Bool.and_false]
                rfl
              rw [hstep, ih _ hrest, hacc, hp2]
              simp only [Bool.false_and]
          · have hm2 : dmap.contains n = false := by simpa using hm
            have hstep : patchedStep dmap st (.node n []) = st := by
              simp only [patchedStep]
              rw [hm2, Bool.false_and]
              rfl
            rw [hstep, ih _ hrest, hacc, hm2, Bool.false_or]

/-- C4 amended witness: a leaf-only sequence touching the mapped slot twice
runs the setup exactly once and keeps the map. -/
theorem c4_amended_witness :
    ([AccessTree.node "x" [], AccessTree.node "d" [],
      AccessTree.node "d" []].all isLeaf = true) ∧
    patchedSteps ["d"] ⟨true, true, 0⟩
        [AccessTree.node "x" [], AccessTree.node "d" [], AccessTree.node "d" []] =
      (if (true : Bool) && accessesMapped ["d"]
          [AccessTree.node "x" [], AccessTree.node "d" [], AccessTree.node "d" []] then
        { pendingSetup := false, mapPresent := true, setupRuns := 0 + 1 }
      else ⟨true, true, 0⟩) :=
  ⟨by decide,
    c4_amended ["d"]
      [AccessTree.node "x" [], AccessTree.node "d" [], AccessTree.node "d" []]
      ⟨true, true, 0⟩ (by decide)⟩

/-- C10: when some class of the MRO already provides a non-placeholder value
for an annotated slot name (a concrete attribute, a property, or anything
installed by an earlier stacked decorator), neither the law_of_demeter
decoration nor the module decoration changes what the class resolves for
that name — each slot is synthesized at most once across stacked
decorators. -/
theorem c10_no_overwrite (env : Env) (c name b0 : String) (i bi : ClassInfo)
    (a : AttrVal)
    (hc : lookupA env c = some i) (hb0 : b0 ∈ i.mro)
    (hbi : lookupA env b0 = some bi) (ha : lookupA bi.ownAttrs name = some a)
    (hnp : attrIsPlaceholder a = false) :
    (∀ b pfx r, applyLod b pfx env c = .ok r →
        lookupAttrMro r.1 c name = lookupAttrMro env c name) ∧
    (∀ strat env2, applyModule strat env c = .ok env2 →
        lookupAttrMro env2 c name = lookupAttrMro env c name) := by
  have hni := needsImpl_false_of_attr env c name b0 i bi a hc hb0 hbi ha hnp
  constructor
  · intro b pfx r hr
    exact (lodFold_keep b pfx c name (getAllTypeHints env c) (env, []) r hni hr).2 c
  · intro strat env2 hr
    exact (modFold_keep strat c name (getAllTypeHints env c) env env2 hni hr).2 c

/-- C10 witness: a class whose slot `_x` already has a concrete value keeps
it across both decorations. -/
theorem c10_witness :
    applyLod "cfg" "_" envC10 "C10" = .ok (envC10, []) ∧
    applyModule CachingStrategy.notThreadSafe envC10 "C10" = .ok envC10 ∧
    lookupAttrMro (envC10, ([] : List Effect)).1 "C10" "_x" =
      lookupAttrMro envC10 "C10" "_x" :=
  ⟨by decide, by decide,
    (c10_no_overwrite envC10 "C10" "_x" "C10"
        { plainClass "C10" with
            ownAnn := [("_x", .prim .pInt)],
            ownAttrs := [("_x", .concrete (.vInt 7))] }
        { plainClass "C10" with
            ownAnn := [("_x", .prim .pInt)],
            ownAttrs := [("_x", .concrete (.vInt 7))] }
        (.concrete (.vInt 7)) (by decide) (by decide) (by decide) (by decide)
        (by decide)).1 "cfg" "_" (envC10, []) (by decide)⟩

/-- C1 amended: stacked forwarding declarations are resolved at decoration
time, not at access time.  A slot already bound to a forwarding property
(installed by an earlier-applied decorator) is untouched by every
later-applied law_of_demeter decoration, and its accessor performs exactly
one two-step read through the base reference fixed at decoration time — no
candidate chain is consulted at access time. -/
theorem c1_amended (env1 : Env) (c name b1 t b2 pfx2 : String)
    (r : Env × List Effect)
    (hattr : lookupAttrMro env1 c name = some (.fwdProp b1 t))
    (hap : applyLod b2 pfx2 env1 c = .ok r) :
    lookupAttrMro r.1 c name = some (.fwdProp b1 t) ∧
    (∀ (f : Nat) (w : World) (id : Nat) (inst : Instance),
      w.classes = r.1 → lookupA w.heap id = some inst → inst.cls = c →
      inst.pendingSetup = false →
      getAttr (f + 1) w id name = fwdGetVia (getAttr f) w id b1 t) := by
  have hni := needsImpl_false_of_lookupAttr env1 c name _ hattr rfl
  have hk := lodFold_keep b2 pfx2 c name (getAllTypeHints env1 c) (env1, []) r
    hni hap
  have h1 : lookupAttrMro r.1 c name = some (.fwdProp b1 t) := by
    rw [hk.2 c]; exact hattr
  refine ⟨h1, ?_⟩
  intro f w id inst hwc hheap hcls hps
  show getAttrStep (getAttr f) w id name = fwdGetVia (getAttr f) w id b1 t
  rw [getAttrStep, hheap]
  simp only [hps, Bool.false_and, Bool.false_eq_true, if_false]
  simp only [hheap, hcls, hwc, h1]

/-- C1 amended witness: the slot `_shared`, bound to `_module` by the first
decoration, stays bound after the stacked `_config` decoration, and its
access is the single two-step read through `_module`. -/
theorem c1_amended_witness :
    lookupAttrMro e1C1 "Ctl" "_shared" = some (.fwdProp "_module" "shared") ∧
    applyLod "_config" "_" e1C1 "Ctl" =
      .ok (envC1d, [Effect.instantiate "CfgA"]) ∧
    lookupAttrMro (envC1d, [Effect.instantiate "CfgA"]).1 "Ctl" "_shared" =
      some (.fwdProp "_module" "shared") ∧
    getAttr 5 wC1 0 "_shared" = fwdGetVia (getAttr 4) wC1 0 "_module" "shared" := by
  have h := c1_amended e1C1 "Ctl" "_shared" "_module" "shared" "_config" "_"
    (envC1d, [Effect.instantiate "CfgA"]) (by decide) (by decide)
  exact ⟨by decide, by decide, h.1,
    h.2 4 wC1 0 ctlInstC1 rfl (by decide) rfl rfl⟩

/-- C8 amended: errors raised while a forwarding accessor reads through its
base reference propagate to the caller unmodified (no retry, no wrapping),
both when the base-reference read fails and when the member read on the
base value fails.  Factory accessors, by contrast, wrap errors (see the
counterexample). -/
theorem c8_amended (f : Nat) (w : World) (id : Nat) (inst : Instance)
    (name b t : String)
    (hi : lookupA w.heap id = some inst) (hp : inst.pendingSetup = false)
    (ha : lookupAttrMro w.classes inst.cls name = some (.fwdProp b t)) :
    (∀ e, getAttr f w id b = .error e → getAttr (f + 1) w id name = .error e) ∧
    (∀ j w1 e2, getAttr f w id b = .ok (.ref j, w1) →
      getAttr f w1 j t = .error e2 → getAttr (f + 1) w id name = .error e2) := by
  have hstep : getAttr (f + 1) w id name = fwdGetVia (getAttr f) w id b t := by
    show getAttrStep (getAttr f) w id name = _
    rw [getAttrStep, hi]
    simp only [hp, Bool.false_and, Bool.false_eq_true, if_false]
    simp only [hi, ha]
  constructor
  · intro e he
    rw [hstep]
    simp only [fwdGetVia, he]
  · intro j w1 e2 hok he2
    rw [hstep]
    simp only [fwdGetVia, hok, he2]

/-- C8 amended witness: with the base reference absent from the instance,
the forwarding access raises exactly the base read's AttributeError. -/
theorem c8_amended_witness :
    lookupA wC8w.heap 0 = some instC8w ∧
    getAttr 1 wC8w 0 "_cfg" = .error (PyErr.attrError "_cfg") ∧
    getAttr 2 wC8w 0 "_x" = .error (PyErr.attrError "_cfg") :=
  ⟨by decide, by decide,
    (c8_amended 1 wC8w 0 instC8w "_x" "_cfg" "x" (by decide) (by decide)
        (by decide)).1 (PyErr.attrError "_cfg") (by decide)⟩

/-- C3 amended: for a single-slot module class, decoration raises the
unsatisfied-dependency error exactly when the slot's declared type fails
`_can_create_type` and is not in the primitive/container set.  Constructor
arity plays no role in this decision: a nominal non-builtin class exposing a
constructor always passes, regardless of whether its constructor is nullary,
and when the constructor requires arguments the failure surfaces only at
first access, wrapped in a creation TypeError. -/
theorem c3_amended (env : Env) (c n : String) (ty : Ty) (i : ClassInfo)
    (strat : CachingStrategy)
    (hc : lookupA env c = some i) (hm : i.mro = [c]) (ha : i.ownAnn = [(n, ty)])
    (hok : i.annOk = true) (hat : i.ownAttrs = []) :
    applyModule strat env c =
      (if canCreateType env ty then
        .ok (setAttrEnv env c n (.factoryProp ty strat))
      else if isPrim11 ty then .ok env
      else .error (PyErr.typeErrorUnsatisfied n)) ∧
    (∀ d di, ty = Ty.cls d → lookupA env d = some di → di.hasInit = true →
      di.builtinModule = false → canCreateType env ty = true) ∧
    (∀ d di (w : World) (o : Nat), ty = Ty.cls d → lookupA env d = some di →
      di.hasInit = true → di.nullaryOk = false → w.classes = env →
      factoryCreate w o n ty =
        .error (PyErr.typeErrorFailedToCreate n (PyErr.ctorError d))) := by
  refine ⟨?_, ?_, ?_⟩
  · have hh : getAllTypeHints env c = [(n, ty)] := by
      simp [getAllTypeHints, hc, hm, ha, hok, updateAll, insertA]
    have hni : needsImplementation env c n = true := by
      simp [needsImplementation, hc, hm, implFree, hat, lookupA]
    have hna : hasattrMro env c n = false := by
      simp [hasattrMro, hc, hm, hat, lookupA]
    by_cases hcc : canCreateType env ty = true
    · simp [applyModule, hh, List.foldlM, modSlotStep, hni, hna, hcc, bind,
        Except.bind, pure, Except.pure]
    · have hcc2 : canCreateType env ty = false := by simpa using hcc
      by_cases hpr : isPrim11 ty = true
      · simp [applyModule, hh, List.foldlM, modSlotStep, hni, hna, hcc2, hpr,
          bind, Except.bind, pure, Except.pure]
      · have hpr2 : isPrim11 ty = false := by simpa using hpr
        simp [applyModule, hh, List.foldlM, modSlotStep, hni, hna, hcc2, hpr2,
          bind, Except.bind, pure, Except.pure]
  · intro d di hty hdi hinit hbm
    subst hty
    simp [canCreateType, hdi, hinit, hbm]
  · intro d di w o hty hdi hinit hnul hwc
    subst hty
    simp [factoryCreate, factoryCreateInner, hwc, hdi, hinit, hnul]

/-- C3 amended witness: the class NeedsArgs (constructor requiring
arguments) passes decoration, and the access-time factory failure is the
wrapped creation error. -/
theorem c3_amended_witness :
    applyModule CachingStrategy.notThreadSafe envC3 "ModC3" =
      (if canCreateType envC3 (Ty.cls "NeedsArgs") then
        .ok (setAttrEnv envC3 "ModC3" "svc"
          (.factoryProp (Ty.cls "NeedsArgs") .notThreadSafe))
      else if isPrim11 (Ty.cls "NeedsArgs") then .ok envC3
      else .error (PyErr.typeErrorUnsatisfied "svc")) ∧
    canCreateType envC3 (Ty.cls "NeedsArgs") = true ∧
    factoryCreate { classes := envC3, heap := [], hookDepth := [], nextId := 0 }
        0 "svc" (Ty.cls "NeedsArgs") =
      .error (PyErr.typeErrorFailedToCreate "svc" (PyErr.ctorError "NeedsArgs")) := by
  have h := c3_amended envC3 "ModC3" "svc" (Ty.cls "NeedsArgs")
    { plainClass "ModC3" with ownAnn := [("svc", .cls "NeedsArgs")] }
    CachingStrategy.notThreadSafe (by decide) (by decide) (by decide)
    (by decide) (by decide)
  refine ⟨h.1, ?_, ?_⟩
  · exact h.2.1 "NeedsArgs" { plainClass "NeedsArgs" with nullaryOk := false }
      rfl (by decide) (by decide) (by decide)
  · exact h.2.2 "NeedsArgs" { plainClass "NeedsArgs" with nullaryOk := false }
      { classes := envC3, heap := [], hookDepth := [], nextId := 0 } 0 rfl
      (by decide) (by decide) (by decide) (by decide)

theorem factoryCreate_ok (w : World) (o : Nat) (slot cn : String)
    (ci : ClassInfo) (hcn : lookupA w.classes cn = some ci)
    (hinit : ci.hasInit = true) (hnul : ci.nullaryOk = true) :
    factoryCreate w o slot (.cls cn) =
      .ok (.ref w.nextId, postFactory w o cn ci) := by
  simp [factoryCreate, factoryCreateInner, hcn, hinit, hnul]

/-- C6: under the NOT_THREAD_SAFE (Memoized) strategy, the first access on
an owner stores the freshly constructed dependency in the owner's instance
dict, every repeated access on the same owner returns the identical
reference without touching the world again, and a first access on a
distinct owner allocates a distinct reference — two owners never share the
memoized instance. -/
theorem c6_memoized (w : World) (o1 o2 : Nat) (slot cn : String)
    (ci : ClassInfo) (i1 i2 : Instance)
    (hcn : lookupA w.classes cn = some ci) (hinit : ci.hasInit = true)
    (hnul : ci.nullaryOk = true)
    (h1 : lookupA w.heap o1 = some i1) (hs1 : lookupA i1.idict slot = none)
    (h2 : lookupA w.heap o2 = some i2) (hs2 : lookupA i2.idict slot = none)
    (hne : o1 ≠ o2) :
    ∃ w1 w2,
      cachedFactoryGet w o1 slot (.cls cn) = .ok (.ref w.nextId, w1) ∧
      cachedFactoryGet w1 o1 slot (.cls cn) = .ok (.ref w.nextId, w1) ∧
      cachedFactoryGet w1 o2 slot (.cls cn) = .ok (.ref (w.nextId + 1), w2) ∧
      w.nextId ≠ w.nextId + 1 := by
  have fc1 := factoryCreate_ok w o1 slot cn ci hcn hinit hnul
  have hpost1 : lookupA (postFactory w o1 cn ci).heap o1 = some i1 :=
    lookupA_append_some w.heap _ o1 i1 h1
  have hA : cachedFactoryGet w o1 slot (.cls cn) =
      .ok (.ref w.nextId,
        cachedStore (postFactory w o1 cn ci) o1 slot i1 (.ref w.nextId)) := by
    simp only [cachedFactoryGet, h1, hs1, fc1, hpost1]
    rfl
  have e1 : lookupA
      (cachedStore (postFactory w o1 cn ci) o1 slot i1 (.ref w.nextId)).heap o1 =
      some { i1 with idict := insertA i1.idict slot (.ref w.nextId) } :=
    lookupA_insertA_self (postFactory w o1 cn ci).heap o1 _
  have e2 : lookupA
      ({ i1 with idict := insertA i1.idict slot (.ref w.nextId) } :
        Instance).idict slot = some (.ref w.nextId) :=
    lookupA_insertA_self i1.idict slot _
  have hB : cachedFactoryGet
      (cachedStore (postFactory w o1 cn ci) o1 slot i1 (.ref w.nextId)) o1 slot
      (.cls cn) =
      .ok (.ref w.nextId,
        cachedStore (postFactory w o1 cn ci) o1 slot i1 (.ref w.nextId)) := by
    simp only [cachedFactoryGet, e1, e2]
  have e3 : lookupA
      (cachedStore (postFactory w o1 cn ci) o1 slot i1 (.ref w.nextId)).heap o2 =
      some i2 := by
    have h4 : lookupA (postFactory w o1 cn ci).heap o2 = some i2 :=
      lookupA_append_some w.heap _ o2 i2 h2
    have h5 := lookupA_insertA_ne (postFactory w o1 cn ci).heap o1 o2
      ({ i1 with idict := insertA i1.idict slot (.ref w.nextId) }) hne
    exact h5.trans h4
  have fc2 := factoryCreate_ok
    (cachedStore (postFactory w o1 cn ci) o1 slot i1 (.ref w.nextId)) o2 slot cn
    ci hcn hinit hnul
  have hpost2 : lookupA
      (postFactory
        (cachedStore (postFactory w o1 cn ci) o1 slot i1 (.ref w.nextId)) o2 cn
        ci).heap o2 = some i2 :=
    lookupA_append_some
      (cachedStore (postFactory w o1 cn ci) o1 slot i1 (.ref w.nextId)).heap _
      o2 i2 e3
  have hC : cachedFactoryGet
      (cachedStore (postFactory w o1 cn ci) o1 slot i1 (.ref w.nextId)) o2 slot
      (.cls cn) =
      .ok (.ref (w.nextId + 1),
        cachedStore
          (postFactory
            (cachedStore (postFactory w o1 cn ci) o1 slot i1 (.ref w.nextId))
            o2 cn ci)
          o2 slot i2 (.ref (w.nextId + 1))) := by
    simp only [cachedFactoryGet, e3, hs2, fc2, hpost2]
    rfl
  exact ⟨_, _, hA, hB, hC, by omega⟩

/-- C6 witness: two fresh owners of the Mod6 module each get their own Svc6
instance, and the first owner's repeated access returns the identical one. -/
theorem c6_memoized_witness :
    ∃ w1 w2,
      cachedFactoryGet wC6 0 "svc" (.cls "Svc6") = .ok (.ref wC6.nextId, w1) ∧
      cachedFactoryGet w1 0 "svc" (.cls "Svc6") = .ok (.ref wC6.nextId, w1) ∧
      cachedFactoryGet w1 1 "svc" (.cls "Svc6") =
        .ok (.ref (wC6.nextId + 1), w2) ∧
      wC6.nextId ≠ wC6.nextId + 1 :=
  c6_memoized wC6 0 1 "svc" "Svc6" (plainClass "Svc6") inst6a inst6a
    (by decide) (by decide) (by decide) (by decide) (by decide) (by decide)
    (by decide) (by decide)

/-- C9: a factory invocation whose constructed dependency has a non-empty
dependency map mutates the dependency's class object — the class-level
attribute hook (modelled by the per-class wrapper-layer count, which is
shared by all existing and future instances of that class) gains one
wrapper around the previously installed hook.  Under the DISABLED strategy
the factory runs on every access, so n accesses to the slot grow the
class's wrapper chain by n layers. -/
theorem c9_hook_growth (env : Env) (cn oc slot : String) (ci : ClassInfo)
    (hcn : lookupA env cn = some ci) (hinit : ci.hasInit = true)
    (hnul : ci.nullaryOk = true)
    (hdm : (computeDependencyMap env cn oc).isEmpty = false) :
    ∀ (n : Nat) (w : World) (o : Nat) (oi : Instance),
      w.classes = env → lookupA w.heap o = some oi → oi.cls = oc →
      hookAt (disabledAccessN slot (.cls cn) o n w) cn = hookAt w cn + n := by
  intro n
  induction n with
  | zero => intro w o oi hwc hheap hcls; rfl
  | succ n ih =>
      intro w o oi hwc hheap hcls
      have hcn2 : lookupA w.classes cn = some ci := by rw [hwc]; exact hcn
      have fc := factoryCreate_ok w o slot cn ci hcn2 hinit hnul
      have hstep : disabledAccessN slot (.cls cn) o (n + 1) w =
          disabledAccessN slot (.cls cn) o n (postFactory w o cn ci) := by
        simp only [disabledAccessN, fc]
      rw [hstep]
      have hwc2 : (postFactory w o cn ci).classes = env := hwc
      have hheap2 : lookupA (postFactory w o cn ci).heap o = some oi :=
        lookupA_append_some w.heap _ o oi hheap
      rw [ih (postFactory w o cn ci) o oi hwc2 hheap2 hcls]
      have hoc : ownerClsOf w o = oc := by simp [ownerClsOf, hheap, hcls]
      have hpost : hookAt (postFactory w o cn ci) cn = hookAt w cn + 1 := by
        simp [hookAt, postFactory, hookAfter, hoc, hwc, hdm, lookupA_insertA_self]
      rw [hpost]
      omega

/-- C9 witness: two DISABLED accesses to the `svc` slot of a Mod9 owner
add two wrapper layers to the Dep9 class hook. -/
theorem c9_hook_growth_witness :
    (computeDependencyMap envC9 "Dep9" "Mod9").isEmpty = false ∧
    hookAt (disabledAccessN "svc" (.cls "Dep9") 0 2 wC9) "Dep9" =
      hookAt wC9 "Dep9" + 2 :=
  ⟨by decide,
    c9_hook_growth envC9 "Dep9" "Mod9" "svc"
      { plainClass "Dep9" with ownAnn := [("_cfg", .prim .pInt)] }
      (by decide) (by decide) (by decide) (by decide) 2 wC9 0
      { cls := "Mod9", idict := [], depMap := [], pendingSetup := false,
        parent := none }
      (by decide) (by decide) (by decide)⟩
